import Mathlib

/-!
Verification development for the browser-observer hooks of the portfolio
repository: scroll tracking (useScrollDirection), viewport matching
(useMediaQuery), clipboard writing (useCopyToClipboard), key combinations
(useKeyCombination), intersection observation (useIntersectionObserver),
throttling (throttle) and the reduced-motion animation transform
(useAccessibleAnimation).  Each hook's event-handling logic is embedded as a
pure state-transition function over an explicit state type; platform access
(window) is modelled as an optional Platform value.
-/

namespace Portfolio

/-! ## Platform model

The hooks read `window.scrollY` and `window.matchMedia(q).matches` when a
window object exists; otherwise they fall back to defaults.  A platform is
modelled by the two capabilities those reads need. -/

structure Platform where
  matchMediaMatches : String → Bool
  scrollY : Int

/-- Breakpoint table from src/lib/constants.ts (Tailwind defaults). -/
def BREAKPOINTS : List (String × Nat) :=
  [("sm", 640), ("md", 768), ("lg", 1024), ("xl", 1280), ("2xl", 1536)]

/-- Query resolution at the top of useMediaQuery: a breakpoint key becomes a
min-width media query, any other string is passed through. -/
def resolveQuery (query : String) : String :=
  match BREAKPOINTS.lookup query with
  | some n => "(min-width: " ++ toString n ++ "px)"
  | none => query

/-- Initial value of the matches state in useMediaQuery: false with no
window, otherwise the platform evaluation of the resolved query. -/
def initialMatches (platform : Option Platform) (query : String) : Bool :=
  match platform with
  | none => false
  | some w => w.matchMediaMatches (resolveQuery query)

/-- Initial scroll offset in useScrollDirection: 0 with no window, otherwise
the platform's current scrollY. -/
def initialScrollY (platform : Option Platform) : Int :=
  match platform with
  | none => 0
  | some w => w.scrollY

/-! ## Scroll tracker (useScrollDirection) -/

inductive ScrollDirection
  | up
  | down
  deriving DecidableEq, Repr

/-- State held by useScrollDirection: the direction signal (null before the
first above-threshold movement), the exposed offset, and the last committed
offset used for the hysteresis comparison. -/
structure ScrollState where
  scrollDirection : Option ScrollDirection
  scrollY : Int
  prevScrollY : Int
  deriving DecidableEq, Repr

/-- Initial state of useScrollDirection: direction null, both offsets
sampled from the platform when present, else 0. -/
def initialScrollState (platform : Option Platform) : ScrollState :=
  { scrollDirection := none
    scrollY := initialScrollY platform
    prevScrollY := initialScrollY platform }

/-- One processed scroll sample (the body of handleScroll in
useScrollDirection): always update scrollY; return early when the absolute
change since prevScrollY is below the threshold; otherwise set the direction
from the sign of the change and commit prevScrollY. -/
def handleScroll (threshold : Nat) (st : ScrollState) (currentScrollY : Int) : ScrollState :=
  if (currentScrollY - st.prevScrollY).natAbs < threshold then
    { st with scrollY := currentScrollY }
  else if currentScrollY > st.prevScrollY then
    { scrollDirection := some ScrollDirection.down
      scrollY := currentScrollY
      prevScrollY := currentScrollY }
  else if currentScrollY < st.prevScrollY then
    { scrollDirection := some ScrollDirection.up
      scrollY := currentScrollY
      prevScrollY := currentScrollY }
  else
    { st with scrollY := currentScrollY, prevScrollY := currentScrollY }

/-- A whole sequence of processed samples. -/
def runScroll (threshold : Nat) (st : ScrollState) (samples : List Int) : ScrollState :=
  samples.foldl (handleScroll threshold) st

/-! ## Clipboard (useCopyToClipboard) -/

/-- The three relevant platform behaviours of navigator.clipboard: the
capability is absent, the write resolves, or the write rejects. -/
inductive ClipboardCap
  | absent
  | writeSucceeds
  | writeRejected
  deriving DecidableEq, Repr

/-- State held by useCopyToClipboard: the stored value and the tri-state
success flag (none = unattempted). -/
structure ClipboardState where
  value : Option String
  success : Option Bool
  deriving DecidableEq, Repr

def initialClipboardState : ClipboardState :=
  { value := none, success := none }

/-- The copy operation of useCopyToClipboard.  With no clipboard capability
it only sets success to false (early return); a resolving write stores the
text and sets success true; a rejecting write is caught, clears the value
and sets success false.  Every path returns normally (the try/catch means
nothing escapes to the caller), so the embedding is a total function. -/
def copy (cap : ClipboardCap) (st : ClipboardState) (text : String) : ClipboardState :=
  match cap with
  | ClipboardCap.absent => { st with success := some false }
  | ClipboardCap.writeSucceeds => { value := some text, success := some true }
  | ClipboardCap.writeRejected => { value := none, success := some false }

/-! ## Reduced-motion animation transform (useAccessibleAnimation)

An animation definition is a JavaScript object whose values are either
primitives or references to nested keyframe-set objects; the nested objects
live in a heap so that the aliasing behaviour of the source (a shallow
spread copy shares the nested objects with the original) is captured
faithfully.  A keyframe set maps property names to primitive values or to a
nested transition object. -/

inductive Prim
  | num (n : Int)
  | str (s : String)
  deriving DecidableEq, Repr

/-- Value of a field inside a keyframe set: a primitive, or a transition
object (a map of transition settings to primitives). -/
inductive FVal
  | prim (p : Prim)
  | tobj (fields : List (String × Prim))
  deriving DecidableEq, Repr

/-- A keyframe-set object. -/
abbrev KSet := List (String × FVal)

/-- Top-level value of an animation definition: a primitive or a reference
to a keyframe-set object in the heap. -/
inductive TVal
  | prim (p : Prim)
  | ref (a : Nat)
  deriving DecidableEq, Repr

abbrev AnimDef := List (String × TVal)

abbrev Heap := List (Nat × KSet)

/-- The motionKeys array of useAccessibleAnimation. -/
def motionKeys : List String := ["x", "y", "scale", "rotate", "rotateX", "rotateY", "rotateZ"]

/-- The replacement transition object: duration 0. -/
def zeroTransition : FVal := FVal.tobj [("duration", Prim.num 0)]

/-- Replacement of the transition field performed by objValue.transition =
duration 0, applied to every entry of a keyframe set. -/
def mapZero (l : KSet) : KSet :=
  l.map (fun p => if p.1 == "transition" then (p.1, zeroTransition) else p)

/-- Effect of the stripping loop body on one keyframe-set object: delete
every motion key, then, if a transition field is present, overwrite it with
the zero-duration transition. -/
def stripSet (s : KSet) : KSet :=
  let s1 := s.filter (fun p => !(motionKeys.contains p.1))
  if s1.any (fun p => p.1 == "transition") then mapZero s1 else s1

/-- In-place update of the heap object at address a by the stripping loop
body (the source mutates the nested object through the shared reference). -/
def heapUpdate (h : Heap) (a : Nat) : Heap :=
  h.map (fun q => if q.1 = a then (q.1, stripSet q.2) else q)

/-- The Object.keys(accessible).forEach loop: every top-level value that is
an object (here: a reference) has its referenced keyframe set stripped in
place. -/
def stripHeap (d : AnimDef) (h : Heap) : Heap :=
  d.foldl (fun acc p =>
    match p.2 with
    | TVal.ref a => heapUpdate acc a
    | TVal.prim _ => acc) h

/-- Number of top-level entries of d that reference address a. -/
def countRefs (d : AnimDef) (a : Nat) : Nat :=
  (d.filter (fun p => decide (p.2 = TVal.ref a))).length

/-- The merge path: the JavaScript spread of reducedAnimation over
fullAnimation (keys of full in order with reduced overrides, then the keys
only in reduced). -/
def mergeDefs (full reduced : AnimDef) : AnimDef :=
  full.map (fun p =>
    match reduced.lookup p.1 with
    | some v => (p.1, v)
    | none => p) ++
  reduced.filter (fun p => !(full.any (fun q => q.1 == p.1)))

/-- The useAccessibleAnimation transform.  Without reduced-motion
preference the full definition is returned untouched; with an explicit
reduced variant the spread merge is returned (heap untouched); otherwise
the shallow copy (the same top-level entries, sharing every reference) is
returned and the referenced keyframe sets are stripped in place. -/
def useAccessibleAnimation (prefersReducedMotion : Bool) (fullAnimation : AnimDef)
    (reducedAnimation : Option AnimDef) (h : Heap) : AnimDef × Heap :=
  if !prefersReducedMotion then (fullAnimation, h)
  else
    match reducedAnimation with
    | some r => (mergeDefs fullAnimation r, h)
    | none => (fullAnimation, stripHeap fullAnimation h)

/-- Concrete animation definition used to exhibit the shared-reference
mutation: a single hidden keyframe set with opacity 0 and x 20. -/
def mutationDef : AnimDef := [("hidden", TVal.ref 0)]

def mutationHeap : Heap :=
  [(0, [("opacity", FVal.prim (Prim.num 0)), ("x", FVal.prim (Prim.num 20))])]

/-- Concrete inputs for the stripping-path witness. -/
def demoFull : AnimDef := [("visible", TVal.ref 0)]

def demoSet : KSet :=
  [("opacity", FVal.prim (Prim.num 1)), ("y", FVal.prim (Prim.num 20)),
   ("transition", FVal.tobj [("duration", Prim.num 1)])]

def demoHeap : Heap := [(0, demoSet)]

/-! ## Visibility observer (useIntersectionObserver) -/

/-- State of one useIntersectionObserver instance: the reported
isIntersecting flag, the hasIntersected latch, and whether the platform
subscription is currently attached.  The effect re-run after the latch is
set returns early (freezeOnceVisible and hasIntersected), so once the
callback has disconnected the observer stays detached. -/
structure ObserverState where
  isIntersecting : Bool
  hasIntersected : Bool
  connected : Bool
  deriving DecidableEq, Repr

def initialObserverState : ObserverState :=
  { isIntersecting := false, hasIntersected := false, connected := true }

/-- One platform intersection notification.  A detached observer receives
nothing (state unchanged); an attached one records the reported state, sets
the latch on true, and, in freeze mode, disconnects on a true report. -/
def observerStep (freezeOnceVisible : Bool) (st : ObserverState)
    (entryIsIntersecting : Bool) : ObserverState :=
  if !st.connected then st
  else
    { isIntersecting := entryIsIntersecting
      hasIntersected := st.hasIntersected || entryIsIntersecting
      connected := !(freezeOnceVisible && entryIsIntersecting) }

/-- A whole sequence of platform notifications. -/
def runObserver (freezeOnceVisible : Bool) (st : ObserverState) (events : List Bool) :
    ObserverState :=
  events.foldl (observerStep freezeOnceVisible) st

/-! ## Key combination (useKeyCombination) -/

inductive KeyEvent
  | keydown (key : String)
  | keyup (key : String)
  deriving DecidableEq, Repr

/-- Set insertion on the held-key set (Set.add). -/
def insertKey (keys : List String) (k : String) : List String :=
  if keys.contains k then keys else keys ++ [k]

/-- Set deletion on the held-key set (Set.delete). -/
def eraseKey (keys : List String) (k : String) : List String :=
  keys.filter (fun x => !(x == k))

/-- Outcome of one event in useKeyCombination: the updated held-key set,
whether the handler fired, and whether preventDefault was called (both
happen under the same allKeysPressed test). -/
structure ComboStepResult where
  pressedKeys : List String
  fired : Bool
  defaultPrevented : Bool
  deriving DecidableEq, Repr

/-- The downHandler and upHandler of useKeyCombination: keydown adds the
key and fires (with preventDefault) exactly when every required key is in
the held set; keyup removes the key. -/
def comboStep (keys : List String) (pressedKeys : List String) (e : KeyEvent) :
    ComboStepResult :=
  match e with
  | KeyEvent.keydown k =>
    let s := insertKey pressedKeys k
    let allKeysPressed := keys.all (fun key => s.contains key)
    { pressedKeys := s, fired := allKeysPressed, defaultPrevented := allKeysPressed }
  | KeyEvent.keyup k =>
    { pressedKeys := eraseKey pressedKeys k, fired := false, defaultPrevented := false }

/-- Run a sequence of key events, returning the final held-key set and the
number of handler invocations. -/
def comboRun (keys : List String) (pressedKeys : List String) :
    List KeyEvent → List String × Nat
  | [] => (pressedKeys, 0)
  | e :: rest =>
    let r := comboStep keys pressedKeys e
    let out := comboRun keys r.pressedKeys rest
    (out.1, (if r.fired then 1 else 0) + out.2)

/-! ## Throttle (lib/utils throttle) -/

/-- State of one throttle wrapper: the time at which the pending setTimeout
will reset inThrottle, if one is pending.  inThrottle is true strictly
before that time (the timer scheduled at time t with delay limit runs at
t + limit, before any notification arriving at or after that time). -/
structure ThrottleState where
  busyUntil : Option Nat
  deriving DecidableEq, Repr

def initialThrottleState : ThrottleState := { busyUntil := none }

/-- The inThrottle flag as seen by a notification arriving at time t. -/
def inThrottle (st : ThrottleState) (t : Nat) : Bool :=
  match st.busyUntil with
  | some u => t < u
  | none => false

/-- One notification at time t: inside an active interval it is dropped
with no state change; otherwise the wrapped function is invoked now and
the interval starts. -/
def throttleStep (limit : Nat) (st : ThrottleState) (t : Nat) : ThrottleState × Bool :=
  if inThrottle st t then (st, false)
  else ({ busyUntil := some (t + limit) }, true)

/-- Run a sequence of notification times, returning the times at which the
wrapped function was invoked. -/
def throttleRun (limit : Nat) (st : ThrottleState) : List Nat → List Nat
  | [] => []
  | t :: rest =>
    let r := throttleStep limit st t
    if r.2 then t :: throttleRun limit r.1 rest
    else throttleRun limit r.1 rest

end Portfolio

namespace Portfolio

/-! ## Theorems for the scroll tracker and platform defaults -/

/-- Claim C3: on every processed sample the exposed offset is updated to the
current value; when the displacement since the last committed offset is
below the threshold the direction signal and the committed offset are left
unchanged; when it reaches the threshold the direction becomes down if the
offset increased and up if it decreased, and the committed offset is set to
the current offset. -/
theorem scroll_direction_hysteresis (threshold : Nat) (st : ScrollState) (y : Int) :
    (handleScroll threshold st y).scrollY = y ∧
    ((y - st.prevScrollY).natAbs < threshold →
      (handleScroll threshold st y).scrollDirection = st.scrollDirection ∧
      (handleScroll threshold st y).prevScrollY = st.prevScrollY) ∧
    (threshold ≤ (y - st.prevScrollY).natAbs →
      (st.prevScrollY < y →
        (handleScroll threshold st y).scrollDirection = some ScrollDirection.down) ∧
      (y < st.prevScrollY →
        (handleScroll threshold st y).scrollDirection = some ScrollDirection.up) ∧
      (handleScroll threshold st y).prevScrollY = y) := by
  unfold handleScroll
  by_cases hlt : (y - st.prevScrollY).natAbs < threshold
  · simp [hlt]
  · by_cases hgt : st.prevScrollY < y
    · simp [hlt, hgt]
      omega
    · by_cases hlt2 : y < st.prevScrollY
      · simp [hlt, hgt, hlt2]
      · simp [hlt, hgt, hlt2]

/-- Witness for C3 at a concrete sub-threshold sample and a concrete
above-threshold sample. -/
theorem scroll_direction_hysteresis_witness :
    (handleScroll 10 ⟨none, 0, 0⟩ 5).scrollY = 5 ∧
    (handleScroll 10 ⟨none, 0, 0⟩ 5).scrollDirection = none ∧
    (handleScroll 10 ⟨none, 0, 0⟩ 25).scrollDirection = some ScrollDirection.down :=
  ⟨(scroll_direction_hysteresis 10 ⟨none, 0, 0⟩ 5).1,
   ((scroll_direction_hysteresis 10 ⟨none, 0, 0⟩ 5).2.1 (by decide)).1,
   ((scroll_direction_hysteresis 10 ⟨none, 0, 0⟩ 25).2.2 (by decide)).1 (by decide)⟩

/-- Claim C10 helper: a single processed sample never resets the direction
signal to null once it is up or down. -/
theorem handleScroll_direction_ne_none (threshold : Nat) (st : ScrollState) (y : Int)
    (h : st.scrollDirection ≠ none) :
    (handleScroll threshold st y).scrollDirection ≠ none := by
  unfold handleScroll
  by_cases hlt : (y - st.prevScrollY).natAbs < threshold
  · simpa [hlt] using h
  · by_cases hgt : y > st.prevScrollY
    · simp [hlt, hgt]
    · by_cases hlt2 : y < st.prevScrollY
      · simp [hlt, hgt, hlt2]
      · simpa [hlt, hgt, hlt2] using h

/-- Claim C10: once the direction signal has become up or down, no further
sequence of processed samples ever returns it to the null state. -/
theorem scroll_direction_never_reverts (threshold : Nat) (st : ScrollState)
    (samples : List Int) (h : st.scrollDirection ≠ none) :
    (runScroll threshold st samples).scrollDirection ≠ none := by
  induction samples generalizing st with
  | nil => exact h
  | cons y rest ih =>
    exact ih (handleScroll threshold st y) (handleScroll_direction_ne_none threshold st y h)

/-- Witness for C10: from a state already scrolling down, a concrete jittery
sample sequence leaves the direction non-null. -/
theorem scroll_direction_never_reverts_witness :
    (runScroll 10 ⟨some ScrollDirection.down, 0, 0⟩ [3, 100, 7]).scrollDirection ≠ none :=
  scroll_direction_never_reverts 10 ⟨some ScrollDirection.down, 0, 0⟩ [3, 100, 7] (by decide)

/-- Claim C8: with no platform the viewport matcher initializes to false for
every query and the scroll tracker initializes its offset to 0; with a
platform both initialize to the platform's current state (the resolved
query evaluation, the current scrollY). -/
theorem observers_default_without_platform (w : Platform) (q : String) :
    initialMatches none q = false ∧
    initialScrollY none = 0 ∧
    (initialScrollState none).scrollY = 0 ∧
    initialMatches (some w) q = w.matchMediaMatches (resolveQuery q) ∧
    initialScrollY (some w) = w.scrollY ∧
    (initialScrollState (some w)).scrollY = w.scrollY :=
  ⟨rfl, rfl, rfl, rfl, rfl, rfl⟩

/-! ## Theorems for the clipboard -/

/-- Claim C6: copy is a total function (the try/catch in the source means it
never throws), its success flag after any call is true or false (never the
unattempted null), a resolving write yields success with the written text
stored, and both failure causes (capability absent, write rejected) yield
the same externally-visible success = false state. -/
theorem copy_resolves_tristate (cap : ClipboardCap) (st : ClipboardState) (text : String) :
    ((copy cap st text).success = some true ∨ (copy cap st text).success = some false) ∧
    (cap = ClipboardCap.writeSucceeds →
      (copy cap st text).success = some true ∧ (copy cap st text).value = some text) ∧
    (cap = ClipboardCap.absent → (copy cap st text).success = some false) ∧
    (cap = ClipboardCap.writeRejected → (copy cap st text).success = some false) := by
  cases cap <;> simp [copy]

/-- Witness for C6 at the working-clipboard case writing "hello". -/
theorem copy_resolves_tristate_witness :
    (copy ClipboardCap.writeSucceeds initialClipboardState "hello").success = some true ∧
    (copy ClipboardCap.writeSucceeds initialClipboardState "hello").value = some "hello" :=
  (copy_resolves_tristate ClipboardCap.writeSucceeds initialClipboardState "hello").2.1 rfl

/-- Claim C9 counterexample: a capability-absent failure after a successful
copy of "hello" resolves to the failure state yet retains the stored value
"hello" instead of clearing it to null. -/
theorem copy_failure_retains_value :
    (copy ClipboardCap.absent
      (copy ClipboardCap.writeSucceeds initialClipboardState "hello") "world").success
        = some false ∧
    (copy ClipboardCap.absent
      (copy ClipboardCap.writeSucceeds initialClipboardState "hello") "world").value
        = some "hello" := by
  decide

/-- Claim C9 amended: a rejected write clears the stored value to null, a
capability-absent failure leaves the stored value unchanged (an earlier
successful value is retained), and a successful copy stores the text just
written. -/
theorem copy_value_state_by_failure_cause (st : ClipboardState) (text : String) :
    (copy ClipboardCap.writeRejected st text).value = none ∧
    (copy ClipboardCap.absent st text).value = st.value ∧
    (copy ClipboardCap.writeSucceeds st text).value = some text :=
  ⟨rfl, rfl, rfl⟩

/-! ## Association-list lemmas for the animation transform -/

/-- Lookup of a key the filter predicate rejects finds nothing in the
filtered list. -/
theorem lookup_filter_key_of_neg {β : Type} (l : List (String × β)) (pr : String → Bool)
    (k : String) (hk : pr k = false) :
    (l.filter (fun p => pr p.1)).lookup k = none := by
  induction l with
  | nil => rfl
  | cons p t ih =>
    by_cases hp : pr p.1 = true
    · have hne : (k == p.1) = false := by
        by_cases hkp : k = p.1
        · rw [hkp] at hk; rw [hk] at hp; exact absurd hp (by simp)
        · simp [hkp]
      simp [List.filter_cons, hp, List.lookup, hne, ih]
    · simp [List.filter_cons, hp, ih]

/-- Lookup of a key the filter predicate keeps is unchanged by filtering. -/
theorem lookup_filter_key_of_pos {β : Type} (l : List (String × β)) (pr : String → Bool)
    (k : String) (hk : pr k = true) :
    (l.filter (fun p => pr p.1)).lookup k = l.lookup k := by
  induction l with
  | nil => rfl
  | cons p t ih =>
    by_cases hkp : k = p.1
    · have hp : pr p.1 = true := by rw [← hkp]; exact hk
      simp [List.filter_cons, hp, List.lookup, hkp]
    · have hne : (k == p.1) = false := by simp [hkp]
      by_cases hp : pr p.1 = true
      · simp [List.filter_cons, hp, List.lookup, hne, ih]
      · simp [List.filter_cons, hp, List.lookup, hne, ih]

/-- A successful lookup gives a positive key test under any. -/
theorem any_key_of_lookup {β : Type} (l : List (String × β)) (k : String) (v : β)
    (h : l.lookup k = some v) : l.any (fun p => p.1 == k) = true := by
  induction l with
  | nil => simp [List.lookup] at h
  | cons p t ih =>
    by_cases hkp : k = p.1
    · simp [List.any_cons, hkp]
    · have hne : (k == p.1) = false := by simp [hkp]
      rw [List.lookup, hne] at h
      simp [List.any_cons, ih h]

/-- Reduction of an if whose Bool condition is the literal true. -/
theorem if_cond_true {α : Type} (a b : α) : (if ((true : Bool) = true) then a else b) = a := rfl

/-- Reduction of an if whose Bool condition is the literal false. -/
theorem if_cond_false {α : Type} (a b : α) : (if ((false : Bool) = true) then a else b) = b := rfl

/-- Lookup of a key other than transition is unchanged by mapZero. -/
theorem lookup_mapZero_ne (l : KSet) (k : String) (hk : (k == "transition") = false) :
    (mapZero l).lookup k = l.lookup k := by
  induction l with
  | nil => rfl
  | cons p t ih =>
    obtain ⟨pk, pv⟩ := p
    have hunf : mapZero ((pk, pv) :: t)
        = (if (pk == "transition") = true then (pk, zeroTransition) else (pk, pv)) :: mapZero t :=
      rfl
    cases hpb : (pk == "transition") with
    | true =>
      have hp1 : pk = "transition" := by simpa using hpb
      have hk2 : (k == pk) = false := by rw [hp1]; exact hk
      rw [hunf, hpb, if_cond_true, List.lookup_cons, List.lookup_cons, hk2]
      exact ih
    | false =>
      rw [hunf, hpb, if_cond_false, List.lookup_cons, List.lookup_cons]
      cases hkb : (k == pk) with
      | true => rfl
      | false => exact ih

/-- Lookup of transition after mapZero yields the zero transition whenever
the key is present. -/
theorem lookup_mapZero_transition (l : KSet) :
    (mapZero l).lookup "transition" = (l.lookup "transition").map (fun _ => zeroTransition) := by
  induction l with
  | nil => rfl
  | cons p t ih =>
    obtain ⟨pk, pv⟩ := p
    have hunf : mapZero ((pk, pv) :: t)
        = (if (pk == "transition") = true then (pk, zeroTransition) else (pk, pv)) :: mapZero t :=
      rfl
    cases hpb : (pk == "transition") with
    | true =>
      have hp1 : pk = "transition" := by simpa using hpb
      have hk2 : (("transition" : String) == pk) = true := by rw [hp1]; rfl
      rw [hunf, hpb, if_cond_true, List.lookup_cons, List.lookup_cons, hk2]
      rfl
    | false =>
      have hk2 : (("transition" : String) == pk) = false := by
        cases hq : (("transition" : String) == pk) with
        | true =>
          have hp1 : pk = "transition" := (beq_iff_eq.mp hq).symm
          rw [hp1] at hpb
          exact absurd hpb (by simp)
        | false => rfl
      rw [hunf, hpb, if_cond_false, List.lookup_cons, List.lookup_cons, hk2]
      exact ih

/-! ## Properties of the per-object stripping step -/

/-- Every motion key is gone from a stripped keyframe set. -/
theorem stripSet_lookup_motion (s : KSet) (m : String)
    (hm : motionKeys.contains m = true) :
    (stripSet s).lookup m = none := by
  have hm2 : (m == "transition") = false := by
    simp [motionKeys] at hm
    rcases hm with rfl | rfl | rfl | rfl | rfl | rfl | rfl <;> decide
  have hpr : (!(motionKeys.contains m)) = false := by rw [hm]; rfl
  have hbase : (s.filter (fun p => !(motionKeys.contains p.1))).lookup m = none :=
    lookup_filter_key_of_neg s (fun x => !(motionKeys.contains x)) m hpr
  unfold stripSet
  by_cases hany :
      (s.filter (fun p => !(motionKeys.contains p.1))).any (fun p => p.1 == "transition") = true
  · simp only [hany, if_true]
    rw [lookup_mapZero_ne _ m hm2]
    exact hbase
  · simp only [hany, if_false]
    exact hbase

/-- Lookup of a key that is neither a motion key nor transition (such as
opacity) is unchanged by stripping. -/
theorem stripSet_lookup_keeps (s : KSet) (k : String)
    (h1 : motionKeys.contains k = false) (h2 : (k == "transition") = false) :
    (stripSet s).lookup k = s.lookup k := by
  have hpr : (!(motionKeys.contains k)) = true := by rw [h1]; rfl
  have hbase : (s.filter (fun p => !(motionKeys.contains p.1))).lookup k = s.lookup k :=
    lookup_filter_key_of_pos s (fun x => !(motionKeys.contains x)) k hpr
  unfold stripSet
  by_cases hany :
      (s.filter (fun p => !(motionKeys.contains p.1))).any (fun p => p.1 == "transition") = true
  · simp only [hany, if_true]
    rw [lookup_mapZero_ne _ k h2]
    exact hbase
  · simp only [hany, if_false]
    exact hbase

/-- A keyframe set that carried a transition carries the zero transition
after stripping. -/
theorem stripSet_lookup_transition (s : KSet) (v : FVal)
    (hv : s.lookup "transition" = some v) :
    (stripSet s).lookup "transition" = some zeroTransition := by
  have hpr : (!(motionKeys.contains "transition")) = true := by decide
  have hs1 : (s.filter (fun p => !(motionKeys.contains p.1))).lookup "transition" = some v := by
    rw [lookup_filter_key_of_pos s (fun x => !(motionKeys.contains x)) "transition" hpr]
    exact hv
  have hany :
      (s.filter (fun p => !(motionKeys.contains p.1))).any (fun p => p.1 == "transition") = true :=
    any_key_of_lookup _ "transition" v hs1
  unfold stripSet
  simp only [hany, if_true]
  rw [lookup_mapZero_transition, hs1]
  rfl

/-! ## Iterated stripping (an address referenced several times is stripped
once per reference; the properties are stable under repetition) -/

/-- Motion keys are gone after any positive number of strips. -/
theorem stripSet_iterate_motion (n : Nat) (s : KSet) (m : String)
    (hm : motionKeys.contains m = true) :
    (stripSet^[n + 1] s).lookup m = none := by
  rw [Function.iterate_succ_apply']
  exact stripSet_lookup_motion _ m hm

/-- Non-motion non-transition keys are unchanged after any number of
strips. -/
theorem stripSet_iterate_keeps (n : Nat) (s : KSet) (k : String)
    (h1 : motionKeys.contains k = false) (h2 : (k == "transition") = false) :
    (stripSet^[n] s).lookup k = s.lookup k := by
  induction n with
  | zero => rfl
  | succ n ih =>
    rw [Function.iterate_succ_apply', stripSet_lookup_keeps _ k h1 h2, ih]

/-- A transition present in the input is the zero transition after any
positive number of strips. -/
theorem stripSet_iterate_transition (n : Nat) : ∀ (s : KSet) (v : FVal),
    s.lookup "transition" = some v →
    (stripSet^[n + 1] s).lookup "transition" = some zeroTransition := by
  induction n with
  | zero =>
    intro s v hv
    simpa using stripSet_lookup_transition s v hv
  | succ n ih =>
    intro s v hv
    rw [Function.iterate_succ_apply]
    exact ih (stripSet s) zeroTransition (stripSet_lookup_transition s v hv)

/-! ## Heap-level lemmas -/

/-- Updating the heap at a strips the object stored at a. -/
theorem heapUpdate_lookup_self (h : Heap) (a : Nat) :
    (heapUpdate h a).lookup a = (h.lookup a).map stripSet := by
  induction h with
  | nil => rfl
  | cons q t ih =>
    obtain ⟨qk, qv⟩ := q
    have hunf : heapUpdate ((qk, qv) :: t) a
        = (if qk = a then (qk, stripSet qv) else (qk, qv)) :: heapUpdate t a := rfl
    by_cases hq : qk = a
    · have hba : (a == qk) = true := by simp [hq]
      rw [hunf, if_pos hq, List.lookup_cons, List.lookup_cons, hba]
      rfl
    · have hba : (a == qk) = false := by
        simp only [beq_eq_false_iff_ne, ne_eq]
        exact fun hh => hq hh.symm
      rw [hunf, if_neg hq, List.lookup_cons, List.lookup_cons, hba]
      exact ih

/-- Updating the heap at a leaves every other address unchanged. -/
theorem heapUpdate_lookup_ne (h : Heap) (a b : Nat) (hab : b ≠ a) :
    (heapUpdate h a).lookup b = h.lookup b := by
  induction h with
  | nil => rfl
  | cons q t ih =>
    obtain ⟨qk, qv⟩ := q
    have hunf : heapUpdate ((qk, qv) :: t) a
        = (if qk = a then (qk, stripSet qv) else (qk, qv)) :: heapUpdate t a := rfl
    by_cases hq : qk = a
    · have hba : (b == qk) = false := by
        simp only [beq_eq_false_iff_ne, ne_eq, hq]
        exact hab
      rw [hunf, if_pos hq, List.lookup_cons, List.lookup_cons, hba]
      exact ih
    · rw [hunf, if_neg hq, List.lookup_cons, List.lookup_cons]
      cases hbq : (b == qk) with
      | true => rfl
      | false => exact ih

/-- The whole stripping loop strips the object at address a exactly once
per top-level reference to a. -/
theorem stripHeap_lookup (d : AnimDef) (h : Heap) (a : Nat) :
    (stripHeap d h).lookup a = (h.lookup a).map (stripSet^[countRefs d a]) := by
  induction d generalizing h with
  | nil =>
    simp [stripHeap, countRefs]
  | cons p d ih =>
    cases hp : p.2 with
    | prim q =>
      have hstep : stripHeap (p :: d) h = stripHeap d h := by
        simp [stripHeap, List.foldl_cons, hp]
      have hcnt : countRefs (p :: d) a = countRefs d a := by
        simp [countRefs, List.filter_cons, hp]
      rw [hstep, hcnt, ih]
    | ref b =>
      by_cases hba : b = a
      · subst hba
        have hstep : stripHeap (p :: d) h = stripHeap d (heapUpdate h b) := by
          simp [stripHeap, List.foldl_cons, hp]
        have hcnt : countRefs (p :: d) b = countRefs d b + 1 := by
          simp [countRefs, List.filter_cons, hp]
        rw [hstep, hcnt, ih, heapUpdate_lookup_self]
        cases h.lookup b with
        | none => rfl
        | some s => simp [Function.iterate_succ_apply]
      · have hstep : stripHeap (p :: d) h = stripHeap d (heapUpdate h b) := by
          simp [stripHeap, List.foldl_cons, hp]
        have hcnt : countRefs (p :: d) a = countRefs d a := by
          have : (p.2 = TVal.ref a) = False := by
            simp [hp]
            intro hc
            exact hba hc
          simp [countRefs, List.filter_cons, hp, hba]
        rw [hstep, hcnt, ih, heapUpdate_lookup_ne h b a (fun hh => hba hh.symm)]

/-- An entry referencing a makes the reference count positive. -/
theorem countRefs_pos (d : AnimDef) (k : String) (a : Nat)
    (hmem : (k, TVal.ref a) ∈ d) : 0 < countRefs d a := by
  have hmem2 : (k, TVal.ref a) ∈ d.filter (fun p => decide (p.2 = TVal.ref a)) :=
    List.mem_filter.2 ⟨hmem, by simp⟩
  exact List.length_pos.2 (List.ne_nil_of_mem hmem2)

/-! ## Theorems for the reduced-motion transform -/

/-- Claim C1 (refuted, code bug): the stripping path of
useAccessibleAnimation only makes a shallow copy, so deleting motion keys
mutates the keyframe-set object shared with the caller: after the call the
original definition's hidden set has lost its x key. -/
theorem strip_mutates_shared_keyframes :
    (useAccessibleAnimation true mutationDef none mutationHeap).2.lookup 0
      ≠ mutationHeap.lookup 0 ∧
    (useAccessibleAnimation true mutationDef none mutationHeap).2.lookup 0
      = some [("opacity", FVal.prim (Prim.num 0))] := by
  constructor
  · decide
  · decide

/-- Claim C2: with reduced motion preferred and no explicit reduced
variant, every keyframe set referenced by the animation definition has, in
the result of useAccessibleAnimation, no motion key left, an unchanged
opacity value, and, if it carried a transition, the zero-duration
transition in its place. -/
theorem strip_removes_motion_preserves_opacity (full : AnimDef) (h : Heap)
    (k : String) (a : Nat) (s : KSet)
    (hmem : (k, TVal.ref a) ∈ full) (hlk : h.lookup a = some s) :
    ∃ s', (useAccessibleAnimation true full none h).2.lookup a = some s' ∧
      (∀ m, motionKeys.contains m = true → s'.lookup m = none) ∧
      s'.lookup "opacity" = s.lookup "opacity" ∧
      (∀ v, s.lookup "transition" = some v →
        s'.lookup "transition" = some zeroTransition) := by
  have hres : (useAccessibleAnimation true full none h).2 = stripHeap full h := rfl
  obtain ⟨n, hn⟩ : ∃ n, countRefs full a = n + 1 := by
    have := countRefs_pos full k a hmem
    exact ⟨countRefs full a - 1, by omega⟩
  refine ⟨stripSet^[n + 1] s, ?_, ?_, ?_, ?_⟩
  · rw [hres, stripHeap_lookup, hn, hlk]
    rfl
  · intro m hm
    exact stripSet_iterate_motion n s m hm
  · exact stripSet_iterate_keeps (n + 1) s "opacity" (by decide) (by decide)
  · intro v hv
    exact stripSet_iterate_transition n s v hv

/-- Witness for C2 on a concrete definition with opacity, a y offset and a
nonzero transition. -/
theorem strip_removes_motion_witness :
    ∃ s', (useAccessibleAnimation true demoFull none demoHeap).2.lookup 0 = some s' ∧
      (∀ m, motionKeys.contains m = true → s'.lookup m = none) ∧
      s'.lookup "opacity" = demoSet.lookup "opacity" ∧
      (∀ v, demoSet.lookup "transition" = some v →
        s'.lookup "transition" = some zeroTransition) :=
  strip_removes_motion_preserves_opacity demoFull demoHeap "visible" 0 demoSet
    (by decide) (by decide)

/-! ## Theorems for the visibility observer -/

/-- A detached observer ignores a platform notification. -/
theorem observerStep_of_disconnected (freeze : Bool) (st : ObserverState) (e : Bool)
    (h : st.connected = false) : observerStep freeze st e = st := by
  simp [observerStep, h]

/-- A detached observer ignores every further notification sequence. -/
theorem runObserver_of_disconnected (freeze : Bool) (events : List Bool) :
    ∀ st : ObserverState, st.connected = false → runObserver freeze st events = st := by
  induction events with
  | nil => intro st _; rfl
  | cons e rest ih =>
    intro st h
    have hcons : runObserver freeze st (e :: rest)
        = runObserver freeze (observerStep freeze st e) rest := rfl
    rw [hcons, observerStep_of_disconnected freeze st e h]
    exact ih st h

/-- In freeze mode the invariant that a true report implies a detached
subscription is preserved along any notification sequence. -/
theorem runObserver_freeze_invariant (events : List Bool) :
    ∀ st : ObserverState, (st.isIntersecting = true → st.connected = false) →
      (runObserver true st events).isIntersecting = true →
        (runObserver true st events).connected = false := by
  induction events with
  | nil => intro st h; exact h
  | cons e rest ih =>
    intro st h
    have hcons : runObserver true st (e :: rest)
        = runObserver true (observerStep true st e) rest := rfl
    rw [hcons]
    apply ih
    by_cases hc : st.connected = true
    · cases e with
      | false =>
        intro hI
        simp [observerStep, hc] at hI
      | true =>
        intro _
        simp [observerStep, hc]
    · have hc2 : st.connected = false := by
        cases hcc : st.connected
        · rfl
        · exact absurd hcc hc
      rw [observerStep_of_disconnected true st e hc2]
      exact h

/-- Claim C4: in freeze-once-visible mode, whenever a run from the initial
state reports intersecting, the platform subscription is detached at that
point, and every further notification sequence leaves the state unchanged,
so the observer keeps reporting true and never observes the platform
again. -/
theorem freeze_once_visible_latches (events more : List Bool)
    (h : (runObserver true initialObserverState events).isIntersecting = true) :
    (runObserver true initialObserverState events).connected = false ∧
    runObserver true (runObserver true initialObserverState events) more
      = runObserver true initialObserverState events ∧
    (runObserver true (runObserver true initialObserverState events) more).isIntersecting
      = true := by
  have hdis : (runObserver true initialObserverState events).connected = false :=
    runObserver_freeze_invariant events initialObserverState
      (fun hI => by simp [initialObserverState] at hI) h
  have hfix : runObserver true (runObserver true initialObserverState events) more
      = runObserver true initialObserverState events :=
    runObserver_of_disconnected true more _ hdis
  exact ⟨hdis, hfix, by rw [hfix]; exact h⟩

/-- Witness for C4 on the notification sequence false then true, followed
by three further notifications. -/
theorem freeze_once_visible_latches_witness :
    (runObserver true initialObserverState [false, true]).connected = false ∧
    runObserver true (runObserver true initialObserverState [false, true]) [false, true, false]
      = runObserver true initialObserverState [false, true] ∧
    (runObserver true (runObserver true initialObserverState [false, true])
      [false, true, false]).isIntersecting = true :=
  freeze_once_visible_latches [false, true] [false, true, false] (by decide)

/-! ## Theorems for the key combination -/

/-- Claim C5: with required set Control and k, pressing Control then k
fires the handler exactly once; pressing only one of them fires it zero
times; pressing them sequentially with a release in between fires it zero
times; and preventDefault is called exactly when the handler fires. -/
theorem key_combination_fires_once :
    (comboRun ["Control", "k"] []
      [KeyEvent.keydown "Control", KeyEvent.keydown "k"]).2 = 1 ∧
    (comboRun ["Control", "k"] [] [KeyEvent.keydown "Control"]).2 = 0 ∧
    (comboRun ["Control", "k"] [] [KeyEvent.keydown "k"]).2 = 0 ∧
    (comboRun ["Control", "k"] []
      [KeyEvent.keydown "Control", KeyEvent.keyup "Control", KeyEvent.keydown "k"]).2 = 0 ∧
    (∀ (keys pressed : List String) (e : KeyEvent),
      (comboStep keys pressed e).defaultPrevented = (comboStep keys pressed e).fired) := by
  refine ⟨by decide, by decide, by decide, by decide, ?_⟩
  intro keys pressed e
  cases e <;> rfl

/-! ## Theorems for the throttle -/

/-- Structural facts about a throttled run: the invocation times form a
subsequence of the arrival times, consecutive invocations are at least
limit apart, and a pending interval end bounds every invocation below. -/
theorem throttleRun_spec (limit : Nat) : ∀ (ts : List Nat) (st : ThrottleState),
    (throttleRun limit st ts).Sublist ts ∧
    (throttleRun limit st ts).Chain' (fun a b => a + limit ≤ b) ∧
    (∀ u, st.busyUntil = some u → ∀ f ∈ throttleRun limit st ts, u ≤ f) := by
  intro ts
  induction ts with
  | nil =>
    intro st
    exact ⟨List.Sublist.refl _, List.chain'_nil,
      fun u _ f hf => absurd hf (List.not_mem_nil f)⟩
  | cons t rest ih =>
    intro st
    by_cases hthr : inThrottle st t = true
    · have hstep : throttleRun limit st (t :: rest) = throttleRun limit st rest := by
        simp [throttleRun, throttleStep, hthr]
      obtain ⟨hs, hc, hb⟩ := ih st
      refine ⟨?_, ?_, ?_⟩
      · rw [hstep]
        exact List.Sublist.cons t hs
      · rw [hstep]
        exact hc
      · intro u hu f hf
        rw [hstep] at hf
        exact hb u hu f hf
    · have hthr2 : inThrottle st t = false := by
        cases hh : inThrottle st t
        · rfl
        · exact absurd hh hthr
      have hstep : throttleRun limit st (t :: rest)
          = t :: throttleRun limit ⟨some (t + limit)⟩ rest := by
        simp [throttleRun, throttleStep, hthr2]
      obtain ⟨hs, hc, hb⟩ := ih ⟨some (t + limit)⟩
      have hlow : ∀ f ∈ throttleRun limit ⟨some (t + limit)⟩ rest, t + limit ≤ f :=
        fun f hf => hb (t + limit) rfl f hf
      refine ⟨?_, ?_, ?_⟩
      · rw [hstep]
        exact List.Sublist.cons₂ t hs
      · rw [hstep]
        refine List.chain'_cons'.mpr ⟨?_, hc⟩
        intro b hb2
        exact hlow b (List.mem_of_mem_head? hb2)
      · intro u hu f hf
        rw [hstep] at hf
        have hut : u ≤ t := by
          unfold inThrottle at hthr2
          rw [hu] at hthr2
          have := of_decide_eq_false hthr2
          omega
        rcases List.mem_cons.mp hf with rfl | hf2
        · exact hut
        · exact le_trans hut (le_trans (Nat.le_add_right t limit) (hlow f hf2))

/-- Claim C7: every invocation of the wrapped function happens at one of
the arrival times in order (a subsequence, so nothing is replayed from a
buffer), any two consecutive invocations are at least the configured limit
apart (at most one invocation per interval), and a notification arriving
inside an active interval is dropped with no state change. -/
theorem throttle_at_most_one_per_interval (limit : Nat) (ts : List Nat) (st : ThrottleState) :
    (throttleRun limit st ts).Sublist ts ∧
    (throttleRun limit st ts).Chain' (fun a b => a + limit ≤ b) ∧
    (∀ t, inThrottle st t = true → throttleStep limit st t = (st, false)) := by
  obtain ⟨hs, hc, _⟩ := throttleRun_spec limit ts st
  refine ⟨hs, hc, ?_⟩
  intro t ht
  simp [throttleStep, ht]

/-- Witness for C7: a concrete burst of notifications under the default
100 ms interval, and a concrete dropped notification. -/
theorem throttle_at_most_one_per_interval_witness :
    (throttleRun 100 initialThrottleState [0, 50, 120, 130, 250]).Sublist
      [0, 50, 120, 130, 250] ∧
    (throttleRun 100 initialThrottleState [0, 50, 120, 130, 250]).Chain'
      (fun a b => a + 100 ≤ b) ∧
    (∀ t, inThrottle initialThrottleState t = true →
      throttleStep 100 initialThrottleState t = (initialThrottleState, false)) :=
  throttle_at_most_one_per_interval 100 [0, 50, 120, 130, 250] initialThrottleState

end Portfolio
